import Mathlib

/-!
Shallow embedding of the frame-pipeline orchestrator in main.py of
xbr-video-upscaler, and proofs about the claims of its specification.

Modelling conventions:
- The filesystem and process state visible to the script is a World:
  whether the staging directory exists, the paths of the files inside it,
  whether the final output video has been written, the printed lines, the
  spawned external commands, and the interruption flag.
- Termination of the process through sys.exit is the PyResult.exited
  constructor; an uncaught Python exception is PyResult.raised; falling
  off the end of a function is PyResult.ok.
- External collaborators (cv2, subprocess, the filesystem probes) are
  oracles carried in the Job record: the number of frames cv2 decodes,
  per-frame write success, per-frame exit status of the resizer process,
  the ffmpeg exit status, the probed frame rate rendered as a string, and
  the list of paths existing outside the staging area.
- The thread pool of upscale_frames is embedded as one sequential
  interleaving in which every submitted frame is dispatched in index
  order. The executor catches any exception a worker raises, including
  the SystemExit of a sys.exit call, and stores it on the future; the
  drain loop never calls result(), so worker outcomes are swallowed:
  a failing frame stops neither the dispatch of the remaining submitted
  frames nor the process, and only the shared state carries over.
- Float arithmetic of the source is modelled by exact rationals.
-/

/-- Decimal digit characters of a natural number, most significant first,
computed with explicit fuel so that the definition reduces in the kernel.
Models the decimal rendering used by Python str on a natural number. -/
def decDigitsAux : ℕ → ℕ → List Char
  | 0, _ => []
  | fuel + 1, n =>
    if n < 10 then [Nat.digitChar n]
    else decDigitsAux fuel (n / 10) ++ [Nat.digitChar (n % 10)]

/-- Python str(n) for a natural number. -/
def pyStr (n : ℕ) : String := ⟨decDigitsAux (n + 1) n⟩

/-- Python str for an integer. -/
def intStr (z : ℤ) : String := if z < 0 then "-" ++ pyStr z.natAbs else pyStr z.natAbs

/-- Python format spec 05: decimal, left padded with the zero digit to
width 5 at least. -/
def pad5 (n : ℕ) : String := (⟨List.replicate (5 - (pyStr n).length) '0'⟩ : String) ++ pyStr n

/-- Path of the raw extracted frame number i inside the staging directory,
os.path.join modelled by a slash for these relative paths. -/
def frame_png (td : String) (i : ℕ) : String := td ++ "/frame_" ++ pad5 i ++ ".png"

/-- Path of the upscaled companion of frame number i. -/
def frame_up_png (td : String) (i : ℕ) : String := td ++ "/frame_" ++ pad5 i ++ "_up.png"

/-- Last index of a character in a list; model of Python str.rfind, giving
-1 when the character is absent. -/
def rfindChar (l : List Char) (c : Char) : ℤ :=
  ((l.enum.filter (fun p => p.2 == c)).getLast?).elim (-1) (fun p => (p.1 : ℤ))

/-- Model of os.path.splitext with posix separators: split off the
extension at the last dot, provided that dot lies after the last slash and
that the base name has some character other than a dot before it. -/
def splitext (p : String) : String × String :=
  let l := p.data
  let sepIndex := rfindChar l '/'
  let dotIndex := rfindChar l '.'
  if sepIndex < dotIndex ∧
      ((l.drop (sepIndex + 1).toNat).take (dotIndex - sepIndex - 1).toNat).any (fun ch => ch != '.') then
    (⟨l.take dotIndex.toNat⟩, ⟨l.drop dotIndex.toNat⟩)
  else
    (p, "")

/-- Observable state of one run of the script. -/
structure World where
  stagingDir : Bool
  files : List String
  outputFile : Bool
  logs : List String
  procs : List (List String)
  exitEvent : Bool
deriving DecidableEq

/-- Result of running a piece of the script: normal return, process
termination through sys.exit, or an uncaught Python exception. -/
inductive PyResult (α : Type) where
  | ok : α → World → PyResult α
  | exited : ℕ → World → PyResult α
  | raised : String → World → PyResult α
deriving DecidableEq

/-- The world carried by any of the three outcomes. -/
def PyResult.world {α : Type} : PyResult α → World
  | .ok _ w => w
  | .exited _ w => w
  | .raised _ w => w

/-- One printed line. -/
def addLog (m : String) (w : World) : World := { w with logs := w.logs ++ [m] }

/-- cleanup(temp_directory): os.scandir over the staging directory,
os.remove of every entry, then os.rmdir. When the directory is absent,
os.scandir raises FileNotFoundError. -/
def cleanup (w : World) : PyResult Unit :=
  if w.stagingDir then .ok () { w with files := [], stagingDir := false }
  else .raised "FileNotFoundError" w

/-- signal_handler: sets the module-level event, prints, cleans the staging
area and calls sys.exit(0). -/
def signal_handler (w : World) : PyResult Unit :=
  let w1 := addLog "Ctrl+C received, cleaning up..." { w with exitEvent := true }
  match cleanup w1 with
  | .ok _ w2 => .exited 0 w2
  | .exited c w2 => .exited c w2
  | .raised e w2 => .raised e w2

/-- check_dependencies: resizer present and executable, ffmpeg on the
path; exits 1 with a message otherwise. -/
def check_dependencies (imageresizer_ok ffmpeg_ok : Bool) (imageresizer_path : String) (w : World) : PyResult Unit :=
  if !imageresizer_ok then
    .exited 1 (addLog ("Error: ImageResizer must be correctly installed and executable. Current path:\nImageResizer: " ++ imageresizer_path) w)
  else if !ffmpeg_ok then
    .exited 1 (addLog "Error: ffmpeg must be correctly installed. Current path:\nffmpeg: ffmpeg" w)
  else
    .ok () w

/-- get_fps: checks that the input file exists, exiting 1 otherwise, then
returns the probed frame rate (the cv2 float is carried as its decimal
rendering). -/
def get_fps (input_exists : Bool) (fps_str : String) (video_path : String) (w : World) : PyResult String :=
  if !input_exists then
    .exited 1 (addLog ("Error: input video file not found. Given path:\n" ++ video_path) w)
  else
    .ok fps_str w

/-- Loop body of extract_frames: while cv2 keeps decoding, write the frame
and verify it is on disk, exiting 1 on a failed write. The first argument
is the number of frames cv2 still has to yield. -/
def extract_go (write_ok : ℕ → Bool) (td : String) : ℕ → ℕ → World → PyResult ℕ
  | 0, count, w => .ok count w
  | remaining + 1, count, w =>
    if write_ok count then
      extract_go write_ok td remaining (count + 1) { w with files := frame_png td count :: w.files }
    else
      .exited 1 (addLog ("Frame extraction failed for frame " ++ pyStr count) w)

/-- extract_frames: decoded is the number of frames cv2 yields from the
source video, which is 0 when the input file is missing or unreadable;
the function performs no input-existence check of its own. -/
def extract_frames (decoded : ℕ) (write_ok : ℕ → Bool) (td : String) (w : World) : PyResult ℕ :=
  extract_go write_ok td decoded 0 w

/-- Python int() applied to a numeric value: truncation toward zero, here
on exact rational arithmetic. -/
def pyTrunc (q : ℚ) : ℤ := q.num.tdiv q.den

/-- The argument list of one resizer invocation, exactly as upscale_frame
builds it: the secondary Lanczos resize to the truncated target size is
present precisely when the overall scale factor differs from the parsed
native magnification factor. -/
def upscale_cmd (i : ℕ) (td imageresizer_path : String) (scale_factor mag_val : ℚ) (mag_str algorithm : String) (width height : ℤ) : List String :=
  let new_width := pyTrunc (width * scale_factor)
  let new_height := pyTrunc (height * scale_factor)
  let in_frame := frame_png td i
  let out_frame := frame_up_png td i
  if scale_factor ≠ mag_val then
    [imageresizer_path, "/load", in_frame, "/resize", "auto", algorithm ++ " " ++ mag_str ++ "x",
      "/resize", intStr new_width ++ "x" ++ intStr new_height, "Lanczos", "/save", out_frame]
  else
    [imageresizer_path, "/load", in_frame, "/resize", "auto", algorithm ++ " " ++ mag_str ++ "x",
      "/save", out_frame]

/-- upscale_frame: builds the resizer command, spawns it, and on a
non-zero exit status prints the frame index and exit code, cleans the
staging area and exits 1; on success the external tool has written the
upscaled companion file. up_exit is the exit status of the spawned
process and up_out its captured output. Verbose only adds printed
lines. -/
def upscale_frame (i : ℕ) (td imageresizer_path : String) (scale_factor mag_val : ℚ) (mag_str algorithm : String) (width height : ℤ) (verbose : Bool) (up_exit : ℕ) (up_out : String) (w : World) : PyResult Unit :=
  let cmd := upscale_cmd i td imageresizer_path scale_factor mag_val mag_str algorithm width height
  let w1 := if verbose then addLog ("Running command: " ++ String.intercalate " " cmd) w else w
  let w2 := { w1 with procs := w1.procs ++ [cmd] }
  if up_exit = 0 then
    let w3 := { w2 with files := frame_up_png td i :: w2.files }
    .ok () (if verbose then addLog up_out w3 else w3)
  else
    let w3 := addLog ("Error: Upscaling frame " ++ pyStr i ++ " failed with exit code " ++ pyStr up_exit ++ ".") w2
    let w4 := if verbose then addLog ("Output: " ++ up_out) (addLog ("Command: " ++ String.intercalate " " cmd) w3) else w3
    match cleanup w4 with
    | .ok _ w5 => .exited 1 w5
    | .exited n w5 => .exited n w5
    | .raised e w5 => .raised e w5

/-- Loop of upscale_frames over the submitted frame indices, a sequential
interleaving of the thread pool: the first numeric argument is the number
of frames still to dispatch, the second the next frame index. The
executor wraps each worker so that any exception it raises, including
the SystemExit of the sys.exit(1) in the failure handler, is caught and
stored on the future; the drain loop never calls result(), so the
outcome of one frame is discarded and every remaining submitted frame is
still dispatched, with only the shared state carried over. -/
def upscale_go (td imageresizer_path : String) (scale_factor mag_val : ℚ) (mag_str algorithm : String) (width height : ℤ) (verbose : Bool) (up_exit : ℕ → ℕ) (up_out : ℕ → String) : ℕ → ℕ → World → World
  | 0, _, w => w
  | remaining + 1, i, w =>
    upscale_go td imageresizer_path scale_factor mag_val mag_str algorithm width height verbose up_exit up_out remaining (i + 1)
      (upscale_frame i td imageresizer_path scale_factor mag_val mag_str algorithm width height verbose (up_exit i) (up_out i) w).world

/-- upscale_frames: submits every frame index in [0, total_frames),
drains the futures without inspecting them, and returns normally
whatever the workers did. -/
def upscale_frames (td : String) (total_frames : ℕ) (imageresizer_path : String) (scale_factor mag_val : ℚ) (mag_str algorithm : String) (width height : ℤ) (verbose : Bool) (up_exit : ℕ → ℕ) (up_out : ℕ → String) (w : World) : PyResult Unit :=
  .ok () (upscale_go td imageresizer_path scale_factor mag_val mag_str algorithm width height verbose up_exit up_out total_frames 0 w)

/-- get_missing_frames: the indices i in [0, total_frames) whose upscaled
companion file does not exist, in ascending order. A pure function of the
frame count and the staged files. -/
def get_missing_frames (total_frames : ℕ) (td : String) (files : List String) : List ℕ :=
  (List.range total_frames).filter (fun i => decide (frame_up_png td i ∉ files))

/-- Python rendering of a list of integers, for the missing-frames
message. -/
def pyListStr (l : List ℕ) : String := "[" ++ String.intercalate ", " (l.map pyStr) ++ "]"

/-- The default encoder arguments of encode_video. -/
def default_ffmpeg_args : List String :=
  ["-c:v", "libx264", "-preset", "medium", "-tune", "animation", "-crf", "15",
    "-pix_fmt", "yuv420p", "-c:a", "aac", "-b:a", "128k", "-shortest"]

/-- The ffmpeg invocation that encode_video builds: frame-rate, dual
inputs, stream mapping, caller arguments or the defaults, output path. -/
def build_ffmpeg_cmd (fps_str frame_path_list input_video ffmpeg_args output_name : String) : List String :=
  ["ffmpeg", "-r", fps_str, "-i", frame_path_list, "-i", input_video, "-map", "0:v", "-map", "1:a"]
    ++ (if ffmpeg_args = "" then default_ffmpeg_args else ffmpeg_args.splitOn " ")
    ++ [output_name]

/-- encode_video: probes the frame rate (which also checks the input
exists), verifies completeness of the upscaled set, then runs ffmpeg; an
ffmpeg failure is reported with its exit code but does not terminate the
process. input_exists, fps_str, ff_exit and ff_out are the oracles of the
input probe and the spawned ffmpeg process. -/
def encode_video (input_exists : Bool) (fps_str : String) (ff_exit : ℕ) (ff_out : String) (input_video output_name td : String) (total_frames : ℕ) (ffmpeg_args : String) (verbose : Bool) (w : World) : PyResult Unit :=
  match get_fps input_exists fps_str input_video w with
  | .exited n w1 => .exited n w1
  | .raised e w1 => .raised e w1
  | .ok fps w1 =>
    let frame_path_list := td ++ "/frame_%05d_up.png"
    let missing := get_missing_frames total_frames td w1.files
    if missing ≠ [] then
      let w2 := addLog (if missing.length > 10 then
          "Missing upscaled frames: from " ++ pyStr (missing.headD 0) ++ " to " ++ pyStr (missing.getLastD 0)
        else
          "Missing upscaled frames: " ++ pyListStr missing) w1
      match cleanup w2 with
      | .ok _ w3 => .exited 1 w3
      | .exited n w3 => .exited n w3
      | .raised e w3 => .raised e w3
    else
      let w2 := if ffmpeg_args = "" then addLog "Falling back to the default ffmpeg arguments." w1 else w1
      let cmd := build_ffmpeg_cmd fps frame_path_list input_video ffmpeg_args output_name
      let w3 := if verbose then addLog ("Running command: " ++ String.intercalate " " cmd) w2 else w2
      let w4 := { w3 with procs := w3.procs ++ [cmd] }
      if ff_exit = 0 then
        let w5 := { w4 with outputFile := true }
        .ok () (if verbose then addLog ff_out w5 else w5)
      else
        let w5 := addLog ("Error: Encoding video failed with exit code " ++ pyStr ff_exit ++ ".") w4
        let w6 := if verbose then addLog ("Output: " ++ ff_out) (addLog ("Command: " ++ String.intercalate " " cmd) w5) else w5
        .ok () w6

/-- Loop of no_overwrite: while the candidate exists, move to the next
counter; filename and ext are the two halves from splitext, computed once.
The fuel argument makes the recursion structural; no_overwrite passes
enough fuel for the loop to reach a fresh name, proved below. -/
def no_overwrite_go (fs : List String) (filename ext : String) : ℕ → ℕ → String → String
  | 0, _, cur => cur
  | fuel + 1, counter, cur =>
    if cur ∈ fs then
      no_overwrite_go fs filename ext fuel (counter + 1) (filename ++ "(" ++ pyStr counter ++ ")" ++ ext)
    else
      cur

/-- no_overwrite: os.path.exists is modelled by membership in the list fs
of paths existing outside the staging area. -/
def no_overwrite (fs : List String) (out_filename : String) : String :=
  let pr := splitext out_filename
  no_overwrite_go fs pr.1 pr.2 (fs.length + 2) 1 out_filename

/-- Per-run parameters of the __main__ block together with the oracles of
the external collaborators: config values, CLI values, dependency-probe
results, the number of frames cv2 decodes (0 when the input is missing),
per-frame write success, per-frame resizer exit status and output, the
ffmpeg exit status and output, the rendered probed frame rate, and the
paths existing outside the staging area. -/
structure Job where
  imageresizer_ok : Bool
  ffmpeg_ok : Bool
  input_exists : Bool
  decoded : ℕ
  write_ok : ℕ → Bool
  up_exit : ℕ → ℕ
  up_out : ℕ → String
  ff_exit : ℕ
  ff_out : String
  input : String
  imageresizer_path : String
  scale_percent : ℚ
  mag_str : String
  mag_val : ℚ
  algorithm : String
  width : ℤ
  height : ℤ
  container : String
  ffmpeg_args : String
  fps_str : String
  existing : List String
  verbose : Bool

/-- The derived output name of the __main__ block:
input stem, "_upscaled_", algorithm, magnification, "x.", container. -/
def derive_out_filename (c : Job) : String :=
  (splitext c.input).1 ++ "_upscaled_" ++ c.algorithm ++ c.mag_str ++ "x." ++ c.container

/-- The fixed relative staging path of the script. -/
def temp_dir : String := ".temp_frames"

/-- The __main__ block from the point after argument and configuration
parsing: dependency check, staging creation, extraction, dispatch, output
naming, reassembly, cleanup. -/
def main_run (c : Job) : PyResult Unit :=
  let w0 : World := ⟨false, [], false, [], [], false⟩
  match check_dependencies c.imageresizer_ok c.ffmpeg_ok c.imageresizer_path w0 with
  | .exited n w => .exited n w
  | .raised e w => .raised e w
  | .ok _ w =>
    let w1 := { w with stagingDir := true }
    let w2 := addLog "Extracting frames..." w1
    match extract_frames c.decoded c.write_ok temp_dir w2 with
    | .exited n w3 => .exited n w3
    | .raised e w3 => .raised e w3
    | .ok total_frames w3 =>
      let scale_factor := c.scale_percent / 100
      match upscale_frames temp_dir total_frames c.imageresizer_path scale_factor c.mag_val c.mag_str c.algorithm c.width c.height c.verbose c.up_exit c.up_out w3 with
      | .exited n w4 => .exited n w4
      | .raised e w4 => .raised e w4
      | .ok _ w4 =>
        let out_filename := no_overwrite c.existing (derive_out_filename c)
        match encode_video c.input_exists c.fps_str c.ff_exit c.ff_out c.input out_filename temp_dir total_frames c.ffmpeg_args c.verbose w4 with
        | .exited n w5 => .exited n w5
        | .raised e w5 => .raised e w5
        | .ok _ w5 =>
          match cleanup w5 with
          | .ok _ w6 => .ok () w6
          | .exited n w6 => .exited n w6
          | .raised e w6 => .raised e w6

/-!  Decimal rendering: round trip and injectivity. -/

/-- Numeric value of a digit character. -/
def charVal (c : Char) : ℕ := c.toNat - 48

/-- Value of a decimal digit string. -/
def decVal (l : List Char) : ℕ := l.foldl (fun a c => 10 * a + charVal c) 0

theorem decVal_append_digit (l : List Char) (c : Char) :
    decVal (l ++ [c]) = 10 * decVal l + charVal c := by
  simp [decVal, List.foldl_append]

theorem charVal_digitChar : ∀ d < 10, charVal (Nat.digitChar d) = d := by decide

theorem decVal_decDigitsAux : ∀ (fuel n : ℕ), n < 10 ^ fuel → decVal (decDigitsAux fuel n) = n := by
  intro fuel
  induction fuel with
  | zero =>
    intro n hn
    interval_cases n
    rfl
  | succ f ih =>
    intro n hn
    by_cases h : n < 10
    · simp only [decDigitsAux, if_pos h]
      have := charVal_digitChar n h
      simp [decVal, this]
    · have h1 : n / 10 < 10 ^ f := by
        rw [Nat.div_lt_iff_lt_mul (by norm_num)]
        calc n < 10 ^ (f + 1) := hn
          _ = 10 ^ f * 10 := by ring
      simp only [decDigitsAux, if_neg h]
      rw [decVal_append_digit, ih _ h1, charVal_digitChar _ (Nat.mod_lt _ (by norm_num))]
      omega

theorem lt_ten_pow_succ (n : ℕ) : n < 10 ^ (n + 1) :=
  lt_of_lt_of_le (Nat.lt_pow_self (by norm_num) n) (Nat.pow_le_pow_right (by norm_num) (Nat.le_succ n))

theorem decVal_pyStr (n : ℕ) : decVal (pyStr n).data = n :=
  decVal_decDigitsAux (n + 1) n (lt_ten_pow_succ n)

theorem pyStr_injective : Function.Injective pyStr := by
  intro a b h
  have hd : (pyStr a).data = (pyStr b).data := by rw [h]
  have := decVal_pyStr a
  rw [hd, decVal_pyStr b] at this
  exact this.symm

/-!  Claim C4: the secondary Lanczos resize step. -/

/-- C4: for every frame index, the constructed upscale command carries the
secondary resize step, to exactly the truncated target resolution with the
Lanczos filter, precisely when the requested scale factor differs from the
native magnification factor of the algorithm; when they are equal the
secondary resize step is absent from the command. -/
theorem c4_secondary_resize_iff
    (i : ℕ) (td ir : String) (scale mag_val : ℚ) (mag_str algo : String) (width height : ℤ) :
    (scale ≠ mag_val →
      upscale_cmd i td ir scale mag_val mag_str algo width height =
        [ir, "/load", frame_png td i, "/resize", "auto", algo ++ " " ++ mag_str ++ "x",
          "/resize", intStr (pyTrunc (width * scale)) ++ "x" ++ intStr (pyTrunc (height * scale)),
          "Lanczos", "/save", frame_up_png td i]) ∧
    (scale = mag_val →
      upscale_cmd i td ir scale mag_val mag_str algo width height =
        [ir, "/load", frame_png td i, "/resize", "auto", algo ++ " " ++ mag_str ++ "x",
          "/save", frame_up_png td i]) := by
  constructor
  · intro h
    simp [upscale_cmd, h]
  · intro h
    simp [upscale_cmd, h]

/-- Witness for C4 at concrete inputs: scale 4 with native magnification 2
forces the Lanczos step at the truncated size, scale 2 with native
magnification 2 omits it. -/
theorem c4_secondary_resize_iff_witness :
    upscale_cmd 7 temp_dir "ir" 4 2 "2" "xbr" 101 51 =
      ["ir", "/load", frame_png temp_dir 7, "/resize", "auto", "xbr" ++ " " ++ "2" ++ "x",
        "/resize", intStr (pyTrunc (101 * 4)) ++ "x" ++ intStr (pyTrunc (51 * 4)),
        "Lanczos", "/save", frame_up_png temp_dir 7] ∧
    upscale_cmd 7 temp_dir "ir" 2 2 "2" "xbr" 101 51 =
      ["ir", "/load", frame_png temp_dir 7, "/resize", "auto", "xbr" ++ " " ++ "2" ++ "x",
        "/save", frame_up_png temp_dir 7] :=
  ⟨(c4_secondary_resize_iff 7 temp_dir "ir" 4 2 "2" "xbr" 101 51).1 (by norm_num),
    (c4_secondary_resize_iff 7 temp_dir "ir" 2 2 "2" "xbr" 101 51).2 rfl⟩

/-!  Claim C5: the completeness verifier. -/

/-- C5: get_missing_frames is a pure function of the frame count and the
staged files, returning exactly the ascending list of indices in
[0, total) whose upscaled companion is absent; it is empty precisely when
every expected upscaled frame exists; and a non-empty result makes
encode_video fatal: the staging area is released, the process exits 1,
and no output file is produced. -/
theorem c5_get_missing_frames_spec
    (total : ℕ) (td : String) (files : List String) :
    (∀ i, i ∈ get_missing_frames total td files ↔ (i < total ∧ frame_up_png td i ∉ files)) ∧
    (get_missing_frames total td files).Pairwise (· < ·) ∧
    (get_missing_frames total td files = [] ↔ ∀ i < total, frame_up_png td i ∈ files) ∧
    (∀ (fps ff_out input_video output_name ffmpeg_args : String) (ff_exit : ℕ) (verbose : Bool) (w : World),
      w.files = files → w.stagingDir = true → w.outputFile = false →
      get_missing_frames total td files ≠ [] →
      ∃ w', encode_video true fps ff_exit ff_out input_video output_name td total ffmpeg_args verbose w = .exited 1 w' ∧
        w'.stagingDir = false ∧ w'.files = [] ∧ w'.outputFile = false) := by
  refine ⟨?_, ?_, ?_, ?_⟩
  · intro i
    simp [get_missing_frames, List.mem_filter, List.mem_range]
  · exact ((List.pairwise_lt_range total).sublist (List.filter_sublist _))
  · simp [get_missing_frames, List.filter_eq_nil_iff, List.mem_range]
  · intro fps ff_out input_video output_name ffmpeg_args ff_exit verbose w hf hsd hout hm
    rw [← hf] at hm
    unfold encode_video
    rw [show get_fps true fps input_video w = .ok fps w from rfl]
    simp only [if_pos hm, cleanup, addLog, hsd, if_pos]
    exact ⟨_, rfl, rfl, rfl, hout⟩

/-- Witness for C5 at a concrete state: with two expected frames and only
frame 1 upscaled, the missing list is exactly the singleton 0 and
encode_video exits 1 with the staging area released. -/
theorem c5_get_missing_frames_spec_witness :
    (0 ∈ get_missing_frames 2 temp_dir [frame_up_png temp_dir 1] ↔
      (0 < 2 ∧ frame_up_png temp_dir 0 ∉ [frame_up_png temp_dir 1])) ∧
    ∃ w', encode_video true "30.0" 0 "" "in.mp4" "out.mp4" temp_dir 2 "" false
        ⟨true, [frame_up_png temp_dir 1], false, [], [], false⟩ = .exited 1 w' ∧
      w'.stagingDir = false ∧ w'.files = [] ∧ w'.outputFile = false :=
  ⟨(c5_get_missing_frames_spec 2 temp_dir [frame_up_png temp_dir 1]).1 0,
    (c5_get_missing_frames_spec 2 temp_dir [frame_up_png temp_dir 1]).2.2.2
      "30.0" "" "in.mp4" "out.mp4" "" 0 false _ rfl rfl rfl (by decide)⟩

/-!  Claim C2: interruption semantics. The handler calls sys.exit(0), so
the process exit status on interruption is zero, not non-zero. -/

/-- C2 counterexample: at a concrete interrupted state with a staged file,
signal_handler releases the staging directory but terminates the process
with exit status 0, refuting the claimed non-zero exit status. -/
theorem c2_counterexample_exit_zero :
    signal_handler ⟨true, [frame_png temp_dir 0], false, [], [], false⟩ =
      .exited 0 ⟨false, [], false, ["Ctrl+C received, cleaning up..."], [], true⟩ := by
  decide

/-- C2 amended: on an interruption signal arriving while the staging
directory exists and no output has been written, the interruption flag is
set, the staging directory is released, and the process exits with status
zero, with no output file present. -/
theorem c2_amended_interrupt_releases_and_exits_zero
    (w : World) (hsd : w.stagingDir = true) (hout : w.outputFile = false) :
    ∃ w', signal_handler w = .exited 0 w' ∧ w'.stagingDir = false ∧ w'.files = [] ∧
      w'.outputFile = false ∧ w'.exitEvent = true := by
  unfold signal_handler
  simp only [cleanup, addLog, hsd, if_pos]
  exact ⟨_, rfl, rfl, rfl, hout, rfl⟩

/-- Witness for C2 amended at a concrete interrupted state. -/
theorem c2_amended_witness :
    ∃ w', signal_handler ⟨true, [frame_png temp_dir 0, frame_png temp_dir 1], false, [], [], false⟩ = .exited 0 w' ∧
      w'.stagingDir = false ∧ w'.files = [] ∧ w'.outputFile = false ∧ w'.exitEvent = true :=
  c2_amended_interrupt_releases_and_exits_zero _ rfl rfl

/-!  Claim C8: cleanup release semantics. A second call on an already
removed staging directory raises FileNotFoundError instead of succeeding
with no effect. -/

/-- C8 counterexample: releasing a concrete staging area succeeds once,
and calling cleanup again on the resulting state raises FileNotFoundError
rather than succeeding with no effect. -/
theorem c8_counterexample_second_call_raises :
    cleanup ⟨true, [frame_png temp_dir 0, frame_up_png temp_dir 0], false, [], [], false⟩ =
      .ok () ⟨false, [], false, [], [], false⟩ ∧
    cleanup ⟨false, [], false, [], [], false⟩ =
      .raised "FileNotFoundError" ⟨false, [], false, [], [], false⟩ := by
  exact ⟨rfl, rfl⟩

/-- C8 amended: cleanup removes the staging directory and all its
contents whenever the directory exists, leaving everything else in place;
but it is not idempotent: a call on an already-removed directory raises
FileNotFoundError. -/
theorem c8_amended_cleanup_not_idempotent (w : World) :
    (w.stagingDir = true → cleanup w = .ok () { w with files := [], stagingDir := false }) ∧
    (w.stagingDir = false → cleanup w = .raised "FileNotFoundError" w) := by
  constructor <;> intro h <;> simp [cleanup, h]

/-- Witness for C8 amended at concrete states on both branches. -/
theorem c8_amended_witness :
    cleanup ⟨true, [frame_png temp_dir 3], true, [], [], false⟩ =
      .ok () ⟨false, [], true, [], [], false⟩ ∧
    cleanup ⟨false, [frame_png temp_dir 3], true, [], [], false⟩ =
      .raised "FileNotFoundError" ⟨false, [frame_png temp_dir 3], true, [], [], false⟩ :=
  ⟨(c8_amended_cleanup_not_idempotent ⟨true, [frame_png temp_dir 3], true, [], [], false⟩).1 rfl,
    (c8_amended_cleanup_not_idempotent ⟨false, [frame_png temp_dir 3], true, [], [], false⟩).2 rfl⟩

/-!  Claim C7: there is no input-existence check in frame extraction; the
check lives in get_fps, which runs only inside encode_video, after
extraction and dispatch. -/

/-- C7 counterexample: for a missing input, cv2 yields no frames, and
extraction at a concrete state returns frame count 0 without any error or
exit; extraction does not fail on a missing input. -/
theorem c7_counterexample_extraction_no_check :
    extract_frames 0 (fun _ => true) temp_dir ⟨true, [], false, [], [], false⟩ =
      .ok 0 ⟨true, [], false, [], [], false⟩ := by
  rfl

/-- C7 amended: extraction performs no input-existence check and returns
count 0 for a missing input (cv2 yields no frames); the input-not-found
fatal exit happens later, in the frame-rate probe get_fps, the first step
of encode_video. -/
theorem c7_amended_input_check_in_get_fps
    (write_ok : ℕ → Bool) (td : String) (w : World) (fps video_path : String) :
    extract_frames 0 write_ok td w = .ok 0 w ∧
    get_fps false fps video_path w =
      .exited 1 (addLog ("Error: input video file not found. Given path:\n" ++ video_path) w) := by
  exact ⟨rfl, rfl⟩

/-!  Pipeline lemmas shared by the run-level claims. -/

theorem extract_go_ok (write_ok : ℕ → Bool) (td : String) :
    ∀ (remaining count : ℕ) (w : World), (∀ k, k < count + remaining → write_ok k = true) →
      ∃ fs, extract_go write_ok td remaining count w = .ok (count + remaining) { w with files := fs } := by
  intro remaining
  induction remaining with
  | zero =>
    intro count w _
    exact ⟨w.files, rfl⟩
  | succ r ih =>
    intro count w h
    have hc : write_ok count = true := h count (by omega)
    obtain ⟨fs, hfs⟩ := ih (count + 1) { w with files := frame_png td count :: w.files } (fun k hk => h k (by omega))
    refine ⟨fs, ?_⟩
    rw [show count + (r + 1) = (count + 1) + r from by omega]
    simp only [extract_go, if_pos hc]
    exact hfs

theorem extract_frames_ok (decoded : ℕ) (write_ok : ℕ → Bool) (td : String) (w : World) (h : ∀ k, write_ok k = true) :
    ∃ fs, extract_frames decoded write_ok td w = .ok decoded { w with files := fs } := by
  obtain ⟨fs, hfs⟩ := extract_go_ok write_ok td decoded 0 w (fun k _ => h k)
  rw [Nat.zero_add] at hfs
  exact ⟨fs, hfs⟩

theorem upscale_frame_ok (i : ℕ) (td ir : String) (sf mv : ℚ) (ms algo : String) (wd ht : ℤ) (vb : Bool) (uo : String) (w : World) :
    ∃ lg, upscale_frame i td ir sf mv ms algo wd ht vb 0 uo w =
      .ok () { w with files := frame_up_png td i :: w.files, logs := w.logs ++ lg, procs := w.procs ++ [upscale_cmd i td ir sf mv ms algo wd ht] } := by
  cases vb with
  | false =>
    refine ⟨[], ?_⟩
    simp [upscale_frame, addLog]
  | true =>
    refine ⟨["Running command: " ++ String.intercalate " " (upscale_cmd i td ir sf mv ms algo wd ht), uo], ?_⟩
    simp [upscale_frame, addLog]

theorem upscale_frame_fail (i : ℕ) (td ir : String) (sf mv : ℚ) (ms algo : String) (wd ht : ℤ) (vb : Bool) (ec : ℕ) (uo : String) (w : World) (hec : ec ≠ 0) (hsd : w.stagingDir = true) :
    ∃ w', upscale_frame i td ir sf mv ms algo wd ht vb ec uo w = .exited 1 w' ∧
      w'.stagingDir = false ∧ w'.files = [] ∧ w'.outputFile = w.outputFile ∧
      ("Error: Upscaling frame " ++ pyStr i ++ " failed with exit code " ++ pyStr ec ++ ".") ∈ w'.logs ∧
      (∀ m, m ∈ w.logs → m ∈ w'.logs) ∧
      w'.procs = w.procs ++ [upscale_cmd i td ir sf mv ms algo wd ht] := by
  cases vb with
  | false =>
    unfold upscale_frame
    rw [if_neg hec]
    simp only [cleanup, addLog, hsd, if_pos, Bool.false_eq_true, if_false]
    refine ⟨_, rfl, rfl, rfl, rfl, ?_, ?_, rfl⟩
    · simp
    · intro m hm
      simp [hm]
  | true =>
    unfold upscale_frame
    rw [if_neg hec]
    simp only [cleanup, addLog, hsd, if_pos, if_true]
    refine ⟨_, rfl, rfl, rfl, rfl, ?_, ?_, rfl⟩
    · simp
    · intro m hm
      simp [hm]

theorem upscale_frame_fail_nodir (i : ℕ) (td ir : String) (sf mv : ℚ) (ms algo : String) (wd ht : ℤ) (vb : Bool) (ec : ℕ) (uo : String) (w : World) (hec : ec ≠ 0) (hsd : w.stagingDir = false) :
    ∃ w', upscale_frame i td ir sf mv ms algo wd ht vb ec uo w = .raised "FileNotFoundError" w' ∧
      w'.stagingDir = false ∧ w'.files = w.files ∧ w'.outputFile = w.outputFile ∧
      ("Error: Upscaling frame " ++ pyStr i ++ " failed with exit code " ++ pyStr ec ++ ".") ∈ w'.logs ∧
      (∀ m, m ∈ w.logs → m ∈ w'.logs) ∧
      w'.procs = w.procs ++ [upscale_cmd i td ir sf mv ms algo wd ht] := by
  cases vb with
  | false =>
    unfold upscale_frame
    rw [if_neg hec]
    simp only [cleanup, addLog, hsd, Bool.false_eq_true, if_false]
    refine ⟨_, rfl, rfl, rfl, rfl, ?_, ?_, rfl⟩
    · simp
    · intro m hm
      simp [hm]
  | true =>
    unfold upscale_frame
    rw [if_neg hec]
    simp only [cleanup, addLog, hsd, Bool.false_eq_true, if_false, if_true]
    refine ⟨_, rfl, rfl, rfl, rfl, ?_, ?_, rfl⟩
    · simp
    · intro m hm
      simp [hm]

theorem upscale_go_ok (td ir : String) (sf mv : ℚ) (ms algo : String) (wd ht : ℤ) (vb : Bool) (ue : ℕ → ℕ) (uo : ℕ → String) :
    ∀ (remaining i : ℕ) (w : World), (∀ k, i ≤ k → k < i + remaining → ue k = 0) →
      ∃ w', upscale_go td ir sf mv ms algo wd ht vb ue uo remaining i w = w' ∧
        w'.stagingDir = w.stagingDir ∧ w'.outputFile = w.outputFile ∧
        (∀ p, p ∈ w.files → p ∈ w'.files) ∧
        (∀ k, i ≤ k → k < i + remaining → frame_up_png td k ∈ w'.files) ∧
        (∀ p, p ∈ w.procs → p ∈ w'.procs) ∧
        (∀ k, i ≤ k → k < i + remaining → upscale_cmd k td ir sf mv ms algo wd ht ∈ w'.procs) := by
  intro remaining
  induction remaining with
  | zero =>
    intro i w _
    exact ⟨w, rfl, rfl, rfl, fun _ hp => hp, fun k hk1 hk2 => absurd hk2 (by omega),
      fun _ hp => hp, fun k hk1 hk2 => absurd hk2 (by omega)⟩
  | succ r ih =>
    intro i w h
    have hei : ue i = 0 := h i le_rfl (by omega)
    obtain ⟨lg, hframe⟩ := upscale_frame_ok i td ir sf mv ms algo wd ht vb (uo i) w
    obtain ⟨w', hgo, hsd, hout, hsub, hup, hprsub, hprcmd⟩ :=
      ih (i + 1) { w with files := frame_up_png td i :: w.files, logs := w.logs ++ lg, procs := w.procs ++ [upscale_cmd i td ir sf mv ms algo wd ht] }
        (fun k hk1 hk2 => h k (by omega) (by omega))
    refine ⟨w', ?_, hsd, hout, ?_, ?_, ?_, ?_⟩
    · simp only [upscale_go, hei, hframe, PyResult.world]
      exact hgo
    · intro p hp
      exact hsub p (List.mem_cons_of_mem _ hp)
    · intro k hk1 hk2
      rcases Nat.eq_or_lt_of_le hk1 with heq | hlt
      · exact hsub _ (heq ▸ List.mem_cons_self _ _)
      · exact hup k hlt (by omega)
    · intro p hp
      exact hprsub p (List.mem_append_left _ hp)
    · intro k hk1 hk2
      rcases Nat.eq_or_lt_of_le hk1 with rfl | hlt
      · apply hprsub
        simp
      · exact hprcmd k hlt (by omega)

theorem upscale_go_add (td ir : String) (sf mv : ℚ) (ms algo : String) (wd ht : ℤ) (vb : Bool) (ue : ℕ → ℕ) (uo : ℕ → String) :
    ∀ (a b i : ℕ) (w : World),
      upscale_go td ir sf mv ms algo wd ht vb ue uo (a + b) i w =
        upscale_go td ir sf mv ms algo wd ht vb ue uo b (i + a) (upscale_go td ir sf mv ms algo wd ht vb ue uo a i w) := by
  intro a
  induction a with
  | zero =>
    intro b i w
    rw [Nat.zero_add]
    rfl
  | succ n ih =>
    intro b i w
    rw [show n + 1 + b = (n + b) + 1 from by omega]
    simp only [upscale_go]
    rw [ih b (i + 1) ((upscale_frame i td ir sf mv ms algo wd ht vb (ue i) (uo i) w).world)]
    rw [show i + 1 + n = i + (n + 1) from by omega]

theorem upscale_go_all_fail (td ir : String) (sf mv : ℚ) (ms algo : String) (wd ht : ℤ) (vb : Bool) (ue : ℕ → ℕ) (uo : ℕ → String) :
    ∀ (remaining i : ℕ) (w : World), (∀ k, i ≤ k → k < i + remaining → ue k ≠ 0) →
      w.stagingDir = false →
      ∃ w', upscale_go td ir sf mv ms algo wd ht vb ue uo remaining i w = w' ∧
        w'.stagingDir = false ∧ w'.files = w.files ∧ w'.outputFile = w.outputFile ∧
        (∀ m, m ∈ w.logs → m ∈ w'.logs) ∧
        (∀ p, p ∈ w.procs → p ∈ w'.procs) ∧
        (∀ k, i ≤ k → k < i + remaining → upscale_cmd k td ir sf mv ms algo wd ht ∈ w'.procs) ∧
        (∀ k, i ≤ k → k < i + remaining →
          ("Error: Upscaling frame " ++ pyStr k ++ " failed with exit code " ++ pyStr (ue k) ++ ".") ∈ w'.logs) := by
  intro remaining
  induction remaining with
  | zero =>
    intro i w _ hsd
    exact ⟨w, rfl, hsd, rfl, rfl, fun _ hm => hm, fun _ hp => hp,
      fun k hk1 hk2 => absurd hk2 (by omega), fun k hk1 hk2 => absurd hk2 (by omega)⟩
  | succ r ih =>
    intro i w h hsd
    have hne : ue i ≠ 0 := h i le_rfl (by omega)
    obtain ⟨w1, hframe, hsd1, hfl1, hout1, hmsg1, hsub1, hpr1⟩ :=
      upscale_frame_fail_nodir i td ir sf mv ms algo wd ht vb (ue i) (uo i) w hne hsd
    obtain ⟨w', hgo, hsd', hfl', hout', hsub', hprsub', hprcmd', hmsg'⟩ :=
      ih (i + 1) w1 (fun k hk1 hk2 => h k (by omega) (by omega)) hsd1
    refine ⟨w', ?_, hsd', ?_, ?_, ?_, ?_, ?_, ?_⟩
    · simp only [upscale_go, hframe, PyResult.world]
      exact hgo
    · rw [hfl', hfl1]
    · rw [hout', hout1]
    · intro m hm
      exact hsub' m (hsub1 m hm)
    · intro p hp
      apply hprsub'
      rw [hpr1]
      exact List.mem_append_left _ hp
    · intro k hk1 hk2
      rcases Nat.eq_or_lt_of_le hk1 with rfl | hlt
      · apply hprsub'
        rw [hpr1]
        simp
      · exact hprcmd' k (by omega) (by omega)
    · intro k hk1 hk2
      rcases Nat.eq_or_lt_of_le hk1 with rfl | hlt
      · exact hsub' _ hmsg1
      · exact hmsg' k (by omega) (by omega)

theorem upscale_frames_ok (td ir : String) (total : ℕ) (sf mv : ℚ) (ms algo : String) (wd ht : ℤ) (vb : Bool) (ue : ℕ → ℕ) (uo : ℕ → String) (w : World) (h : ∀ k, ue k = 0) :
    ∃ w', upscale_frames td total ir sf mv ms algo wd ht vb ue uo w = .ok () w' ∧
      w'.stagingDir = w.stagingDir ∧ w'.outputFile = w.outputFile ∧
      (∀ k, k < total → frame_up_png td k ∈ w'.files) := by
  obtain ⟨w', hgo, hsd, hout, _, hup, _, _⟩ :=
    upscale_go_ok td ir sf mv ms algo wd ht vb ue uo total 0 w (fun k _ _ => h k)
  refine ⟨w', ?_, hsd, hout, fun k hk => hup k (Nat.zero_le k) (by omega)⟩
  unfold upscale_frames
  rw [hgo]

/-- With both dependency probes passing, the run reaches extraction with
the staging directory created and one line printed. -/
theorem main_run_eq (c : Job) (h1 : c.imageresizer_ok = true) (h2 : c.ffmpeg_ok = true) :
    main_run c =
      (match extract_frames c.decoded c.write_ok temp_dir ⟨true, [], false, ["Extracting frames..."], [], false⟩ with
      | .exited n w3 => .exited n w3
      | .raised e w3 => .raised e w3
      | .ok total_frames w3 =>
        match upscale_frames temp_dir total_frames c.imageresizer_path (c.scale_percent / 100) c.mag_val c.mag_str c.algorithm c.width c.height c.verbose c.up_exit c.up_out w3 with
        | .exited n w4 => .exited n w4
        | .raised e w4 => .raised e w4
        | .ok _ w4 =>
          match encode_video c.input_exists c.fps_str c.ff_exit c.ff_out c.input (no_overwrite c.existing (derive_out_filename c)) temp_dir total_frames c.ffmpeg_args c.verbose w4 with
          | .exited n w5 => .exited n w5
          | .raised e w5 => .raised e w5
          | .ok _ w5 =>
            match cleanup w5 with
            | .ok _ w6 => .ok () w6
            | .exited n w6 => .exited n w6
            | .raised e w6 => .raised e w6) := by
  unfold main_run
  rw [h1, h2]
  rfl

/-- When the input exists, no upscaled frame is missing and ffmpeg exits
non-zero, encode_video reports the exit code (plus the captured output in
verbose mode) and returns normally without writing the output file and
without touching the staging area. -/
theorem encode_video_ff_fail (fps ff_out input_video output_name td ffmpeg_args : String) (ff_exit : ℕ) (vb : Bool) (total : ℕ) (w : World) (hmiss : get_missing_frames total td w.files = []) (hff : ff_exit ≠ 0) :
    ∃ w', encode_video true fps ff_exit ff_out input_video output_name td total ffmpeg_args vb w = .ok () w' ∧
      w'.stagingDir = w.stagingDir ∧ w'.files = w.files ∧ w'.outputFile = w.outputFile ∧
      ("Error: Encoding video failed with exit code " ++ pyStr ff_exit ++ ".") ∈ w'.logs ∧
      (vb = true → ("Output: " ++ ff_out) ∈ w'.logs) := by
  unfold encode_video
  rw [show get_fps true fps input_video w = .ok fps w from rfl]
  dsimp only
  rw [if_neg (by simp [hmiss])]
  rw [if_neg hff]
  by_cases ha : ffmpeg_args = "" <;> cases vb <;> simp [ha, addLog]

/-- When the input exists but some upscaled frame is missing while the
staging directory has already been removed, encode_video prints the
missing-frames report and its cleanup call raises FileNotFoundError,
which propagates uncaught. -/
theorem encode_video_missing_nodir (fps ff_out input_video output_name td ffmpeg_args : String) (ff_exit : ℕ) (vb : Bool) (total : ℕ) (w : World) (hm : get_missing_frames total td w.files ≠ []) (hsd : w.stagingDir = false) :
    ∃ w', encode_video true fps ff_exit ff_out input_video output_name td total ffmpeg_args vb w = .raised "FileNotFoundError" w' ∧
      w'.stagingDir = false ∧ w'.files = w.files ∧ w'.outputFile = w.outputFile ∧
      (∀ m, m ∈ w.logs → m ∈ w'.logs) ∧
      (∀ p, p ∈ w.procs → p ∈ w'.procs) := by
  unfold encode_video
  rw [show get_fps true fps input_video w = .ok fps w from rfl]
  dsimp only
  rw [if_pos hm]
  simp only [cleanup, addLog, hsd, Bool.false_eq_true, if_false]
  refine ⟨_, rfl, rfl, rfl, rfl, ?_, fun p hp => hp⟩
  intro m hm2
  simp [hm2]

/-!  Claim C1: the program does not stop dispatch on a failing upscale
invocation. Every frame is submitted to the pool up front, the drain
loop never inspects the futures, and the SystemExit of the failing
worker is caught by the executor, so every remaining frame is still
dispatched; the run only dies later, inside encode_video, when the
completeness check finds the upscaled frames missing and cleanup of the
staging directory that the failing worker already removed raises an
uncaught FileNotFoundError. -/

/-- A concrete job configuration for the run-level witnesses: both
dependencies present, an existing two-frame input, writes succeeding,
resizer and ffmpeg succeeding, default encoder arguments. -/
def baseJob : Job :=
  { imageresizer_ok := true, ffmpeg_ok := true, input_exists := true, decoded := 2,
    write_ok := fun _ => true, up_exit := fun _ => 0, up_out := fun _ => "",
    ff_exit := 0, ff_out := "", input := "in.mp4", imageresizer_path := "ir",
    scale_percent := 200, mag_str := "2", mag_val := 2, algorithm := "xbr",
    width := 10, height := 10, container := "mp4", ffmpeg_args := "",
    fps_str := "30.0", existing := [], verbose := false }

/-- The run-level shape of a first upscale failure at frame j (with every
later invocation also failing, its inputs having been deleted together
with the staging area): the worker reports and cleans up, the pool
swallows its exit, every submitted frame is still dispatched and reports
its own failure, and the run dies in reassembly with an uncaught
FileNotFoundError from cleanup of the already-removed staging
directory. -/
theorem main_run_first_upscale_failure (c : Job) (j : ℕ)
    (h1 : c.imageresizer_ok = true) (h2 : c.ffmpeg_ok = true) (h3 : c.input_exists = true)
    (hw : ∀ k, c.write_ok k = true) (hj : j < c.decoded)
    (hpre : ∀ k, k < j → c.up_exit k = 0)
    (hfail : ∀ k, j ≤ k → k < c.decoded → c.up_exit k ≠ 0) :
    ∃ w', main_run c = .raised "FileNotFoundError" w' ∧
      w'.stagingDir = false ∧ w'.files = [] ∧ w'.outputFile = false ∧
      (∀ k, j ≤ k → k < c.decoded →
        ("Error: Upscaling frame " ++ pyStr k ++ " failed with exit code " ++ pyStr (c.up_exit k) ++ ".") ∈ w'.logs) ∧
      (∀ k, k < c.decoded → upscale_cmd k temp_dir c.imageresizer_path (c.scale_percent / 100) c.mag_val c.mag_str c.algorithm c.width c.height ∈ w'.procs) := by
  rw [main_run_eq c h1 h2, h3]
  obtain ⟨fs, hex⟩ := extract_frames_ok c.decoded c.write_ok temp_dir ⟨true, [], false, ["Extracting frames..."], [], false⟩ hw
  rw [hex]
  dsimp only
  obtain ⟨Wp, hgoP, hsdP, houtP, _, _, hprP, hcmdP⟩ :=
    upscale_go_ok temp_dir c.imageresizer_path (c.scale_percent / 100) c.mag_val c.mag_str c.algorithm c.width c.height c.verbose c.up_exit c.up_out j 0
      { stagingDir := true, files := fs, outputFile := false, logs := ["Extracting frames..."], procs := [], exitEvent := false }
      (fun k hk1 hk2 => hpre k (by omega))
  obtain ⟨Wf, hframe, hsdF, hflF, houtF, hmsgF, hsubF, hprF⟩ :=
    upscale_frame_fail j temp_dir c.imageresizer_path (c.scale_percent / 100) c.mag_val c.mag_str c.algorithm c.width c.height c.verbose (c.up_exit j) (c.up_out j) Wp
      (hfail j le_rfl hj) (by rw [hsdP])
  obtain ⟨Wt, hgoT, hsdT, hflT, houtT, hsubT, hprT, hcmdT, hmsgT⟩ :=
    upscale_go_all_fail temp_dir c.imageresizer_path (c.scale_percent / 100) c.mag_val c.mag_str c.algorithm c.width c.height c.verbose c.up_exit c.up_out
      (c.decoded - j - 1) (j + 1) Wf (fun k hk1 hk2 => hfail k (by omega) (by omega)) hsdF
  have hgo : upscale_go temp_dir c.imageresizer_path (c.scale_percent / 100) c.mag_val c.mag_str c.algorithm c.width c.height c.verbose c.up_exit c.up_out c.decoded 0
      { stagingDir := true, files := fs, outputFile := false, logs := ["Extracting frames..."], procs := [], exitEvent := false } = Wt := by
    conv_lhs => rw [show c.decoded = j + (c.decoded - j) from by omega]
    rw [upscale_go_add]
    rw [hgoP, Nat.zero_add]
    rw [show c.decoded - j = (c.decoded - j - 1) + 1 from by omega]
    simp only [upscale_go]
    rw [hframe]
    simp only [PyResult.world]
    exact hgoT
  have hup : upscale_frames temp_dir c.decoded c.imageresizer_path (c.scale_percent / 100) c.mag_val c.mag_str c.algorithm c.width c.height c.verbose c.up_exit c.up_out
      { stagingDir := true, files := fs, outputFile := false, logs := ["Extracting frames..."], procs := [], exitEvent := false } = .ok () Wt := by
    unfold upscale_frames
    rw [hgo]
  rw [hup]
  dsimp only
  have hWtfiles : Wt.files = [] := by rw [hflT, hflF]
  have hmiss : get_missing_frames c.decoded temp_dir Wt.files ≠ [] := by
    rw [hWtfiles]
    have hr : get_missing_frames c.decoded temp_dir [] = List.range c.decoded := by
      simp [get_missing_frames]
    rw [hr]
    simp [List.range_eq_nil]
    omega
  obtain ⟨We, henc, hsdE, hflE, houtE, hsubE, hprE⟩ :=
    encode_video_missing_nodir c.fps_str c.ff_out c.input (no_overwrite c.existing (derive_out_filename c)) temp_dir c.ffmpeg_args c.ff_exit c.verbose c.decoded Wt hmiss hsdT
  rw [henc]
  dsimp only
  refine ⟨We, rfl, hsdE, ?_, ?_, ?_, ?_⟩
  · rw [hflE, hWtfiles]
  · rw [houtE, houtT, houtF, houtP]
  · intro k hk1 hk2
    rcases Nat.eq_or_lt_of_le hk1 with rfl | hlt
    · exact hsubE _ (hsubT _ hmsgF)
    · exact hsubE _ (hmsgT k (by omega) (by omega))
  · intro k hk
    by_cases hkj : k < j
    · apply hprE
      apply hprT
      rw [hprF]
      exact List.mem_append_left _ (hcmdP k (Nat.zero_le k) (by omega))
    · rcases Nat.eq_or_lt_of_le (Nat.le_of_not_lt hkj) with heq | hgt
      · apply hprE
        apply hprT
        rw [hprF, ← heq]
        simp
      · exact hprE _ (hcmdT k (by omega) (by omega))

/-- C1 counterexample: with two frames whose resizer invocations exit 2
and 3, frame 1 is still dispatched after frame 0 has failed: its command
is spawned and its own failure is reported, refuting the claim that no
further frames are dispatched after a non-zero exit; the run then
terminates through an uncaught FileNotFoundError, with no output
file. -/
theorem c1_counterexample_pool_swallows_failure :
    main_run { baseJob with up_exit := fun k => if k = 0 then 2 else 3 } =
      .raised "FileNotFoundError" (main_run { baseJob with up_exit := fun k => if k = 0 then 2 else 3 }).world ∧
    ("Error: Upscaling frame " ++ pyStr 1 ++ " failed with exit code " ++ pyStr 3 ++ ".") ∈
      (main_run { baseJob with up_exit := fun k => if k = 0 then 2 else 3 }).world.logs ∧
    upscale_cmd 1 temp_dir "ir" ((200 : ℚ) / 100) 2 "2" "xbr" 10 10 ∈
      (main_run { baseJob with up_exit := fun k => if k = 0 then 2 else 3 }).world.procs ∧
    (main_run { baseJob with up_exit := fun k => if k = 0 then 2 else 3 }).world.outputFile = false := by
  obtain ⟨We, h1, h2, h3, h4, h5, h6⟩ :=
    main_run_first_upscale_failure { baseJob with up_exit := fun k => if k = 0 then 2 else 3 } 0
      rfl rfl rfl (fun _ => rfl) (by decide) (fun k hk => absurd hk (by omega))
      (by intro k hk1 hk2; rcases k with _ | k <;> simp)
  rw [h1]
  exact ⟨rfl, h5 1 (by omega) (by decide), h6 1 (by decide), h4⟩

/-- C1 amended: when frame j is the first whose upscale process exits
non-zero (and, its input frames having been deleted with the staging
area, every later invocation also fails), the failing worker reports the
frame index and exit status and releases the staging area, but its
sys.exit is swallowed by the thread pool: every submitted frame is still
dispatched, each reporting its own failure, the dispatcher returns
normally, and the run terminates without an output file only in
reassembly, where cleanup of the already-removed staging directory
raises an uncaught FileNotFoundError. -/
theorem c1_amended_upscale_failure (c : Job) (j : ℕ)
    (h1 : c.imageresizer_ok = true) (h2 : c.ffmpeg_ok = true) (h3 : c.input_exists = true)
    (hw : ∀ k, c.write_ok k = true) (hj : j < c.decoded)
    (hpre : ∀ k, k < j → c.up_exit k = 0)
    (hfail : ∀ k, j ≤ k → k < c.decoded → c.up_exit k ≠ 0) :
    ∃ w', main_run c = .raised "FileNotFoundError" w' ∧
      w'.stagingDir = false ∧ w'.files = [] ∧ w'.outputFile = false ∧
      (∀ k, j ≤ k → k < c.decoded →
        ("Error: Upscaling frame " ++ pyStr k ++ " failed with exit code " ++ pyStr (c.up_exit k) ++ ".") ∈ w'.logs) ∧
      (∀ k, k < c.decoded → upscale_cmd k temp_dir c.imageresizer_path (c.scale_percent / 100) c.mag_val c.mag_str c.algorithm c.width c.height ∈ w'.procs) :=
  main_run_first_upscale_failure c j h1 h2 h3 hw hj hpre hfail

/-- Witness for C1 amended: frame 1 of 2 is the first failure, with exit
code 7. -/
theorem c1_amended_upscale_failure_witness :
    ∃ w', main_run { baseJob with up_exit := fun k => if k = 0 then 0 else 7 } = .raised "FileNotFoundError" w' ∧
      w'.stagingDir = false ∧ w'.files = [] ∧ w'.outputFile = false ∧
      (∀ k, 1 ≤ k → k < 2 →
        ("Error: Upscaling frame " ++ pyStr k ++ " failed with exit code " ++ pyStr (({ baseJob with up_exit := fun k => if k = 0 then 0 else 7 } : Job).up_exit k) ++ ".") ∈ w'.logs) ∧
      (∀ k, k < 2 → upscale_cmd k temp_dir "ir" ((200 : ℚ) / 100) 2 "2" "xbr" 10 10 ∈ w'.procs) :=
  c1_amended_upscale_failure { baseJob with up_exit := fun k => if k = 0 then 0 else 7 } 1
    rfl rfl rfl (fun _ => rfl) (by decide) (by decide)
    (by
      intro k hk1 hk2
      have hk2x : k < 2 := hk2
      have hk : k = 1 := by omega
      subst hk
      decide)

/-!  Claim C9: a failing reassembly invocation is reported, not fatal. -/

/-- C9: with every earlier stage succeeding and ffmpeg exiting non-zero,
the failure is reported with its exit code (and the captured output in
verbose mode), no output file is produced, the staging area is still
cleaned up, and the process still terminates normally, with exit status
0. -/
theorem c9_encode_failure_nonfatal (c : Job)
    (h1 : c.imageresizer_ok = true) (h2 : c.ffmpeg_ok = true) (h3 : c.input_exists = true)
    (hw : ∀ k, c.write_ok k = true) (hu : ∀ k, c.up_exit k = 0) (hff : c.ff_exit ≠ 0) :
    ∃ w', main_run c = .ok () w' ∧ w'.stagingDir = false ∧ w'.files = [] ∧ w'.outputFile = false ∧
      ("Error: Encoding video failed with exit code " ++ pyStr c.ff_exit ++ ".") ∈ w'.logs ∧
      (c.verbose = true → ("Output: " ++ c.ff_out) ∈ w'.logs) := by
  rw [main_run_eq c h1 h2, h3]
  obtain ⟨fs, hex⟩ := extract_frames_ok c.decoded c.write_ok temp_dir ⟨true, [], false, ["Extracting frames..."], [], false⟩ hw
  rw [hex]
  dsimp only
  obtain ⟨w4, hup, hsd4, hout4, hupfiles⟩ :=
    upscale_frames_ok temp_dir c.imageresizer_path c.decoded (c.scale_percent / 100) c.mag_val c.mag_str c.algorithm c.width c.height c.verbose c.up_exit c.up_out
      { stagingDir := true, files := fs, outputFile := false, logs := ["Extracting frames..."], procs := [], exitEvent := false } hu
  rw [hup]
  dsimp only
  have hmiss : get_missing_frames c.decoded temp_dir w4.files = [] := by
    simp only [get_missing_frames, List.filter_eq_nil_iff, List.mem_range, decide_eq_true_eq]
    intro i hi
    simp [hupfiles i hi]
  obtain ⟨w5, henc, hsd5, hfl5, hout5, hmsg, hvb⟩ :=
    encode_video_ff_fail c.fps_str c.ff_out c.input (no_overwrite c.existing (derive_out_filename c)) temp_dir c.ffmpeg_args c.ff_exit c.verbose c.decoded w4 hmiss hff
  rw [henc]
  dsimp only
  have hsd5t : w5.stagingDir = true := by rw [hsd5, hsd4]
  have hcl : cleanup w5 = .ok () { w5 with files := [], stagingDir := false } := by
    simp [cleanup, hsd5t]
  rw [hcl]
  refine ⟨_, rfl, rfl, rfl, ?_, hmsg, hvb⟩
  show w5.outputFile = false
  rw [hout5, hout4]

/-- Witness for C9: a run in which only ffmpeg fails, with exit code 5,
verbose enabled. -/
theorem c9_encode_failure_nonfatal_witness :
    ∃ w', main_run { baseJob with ff_exit := 5, ff_out := "boom", verbose := true } = .ok () w' ∧
      w'.stagingDir = false ∧ w'.files = [] ∧ w'.outputFile = false ∧
      ("Error: Encoding video failed with exit code " ++ pyStr 5 ++ ".") ∈ w'.logs ∧
      (true = true → ("Output: " ++ "boom") ∈ w'.logs) :=
  c9_encode_failure_nonfatal { baseJob with ff_exit := 5, ff_out := "boom", verbose := true }
    rfl rfl rfl (fun _ => rfl) (fun _ => rfl) (by decide)

/-!  Claim C3: which fatal conditions release the staging area. The
dependency check runs before the staging directory is created; upscale
failures and incomplete frame sets do release it; but a missing input
and a frame-write failure terminate the process with the staging
directory, and any partial frames, left on disk. -/

/-- C3 counterexample: a run whose input file is missing (so cv2 decodes
no frames) is fatal with exit status 1 in the frame-rate probe, and the
staging directory is still present in the terminal state: this fatal
condition does not trigger staging-area cleanup. -/
theorem c3_counterexample_no_cleanup_on_missing_input :
    main_run { baseJob with input_exists := false, decoded := 0 } =
      .exited 1 ⟨true, [], false, ["Extracting frames...", "Error: input video file not found. Given path:\nin.mp4"], [], false⟩ ∧
    (⟨true, [], false, ["Extracting frames...", "Error: input video file not found. Given path:\nin.mp4"], [], false⟩ : World).stagingDir = true := by
  exact ⟨by decide, rfl⟩

/-- C3 amended: an upscale failure and an incomplete frame set do release
the staging area before the fatal exit, and the dependency check exits
before the staging area is created; but the missing-input check of
get_fps and a frame-write failure in extraction exit the process with the
staging directory, including any partial frames, left in place. -/
theorem c3_amended_cleanup_only_some_paths :
    (∀ (i : ℕ) (td ir : String) (sf mv : ℚ) (ms algo : String) (wd ht : ℤ) (vb : Bool) (ec : ℕ) (uo : String) (w : World),
      ec ≠ 0 → w.stagingDir = true →
      ∃ w', upscale_frame i td ir sf mv ms algo wd ht vb ec uo w = .exited 1 w' ∧
        w'.stagingDir = false ∧ w'.files = []) ∧
    (∀ (fps ff_out input_video output_name td ffmpeg_args : String) (ff_exit total : ℕ) (vb : Bool) (w : World),
      w.stagingDir = true → get_missing_frames total td w.files ≠ [] →
      ∃ w', encode_video true fps ff_exit ff_out input_video output_name td total ffmpeg_args vb w = .exited 1 w' ∧
        w'.stagingDir = false ∧ w'.files = []) ∧
    (∀ (write_ok : ℕ → Bool) (td : String) (remaining count : ℕ) (w : World),
      write_ok count = false →
      extract_go write_ok td (remaining + 1) count w =
        .exited 1 (addLog ("Frame extraction failed for frame " ++ pyStr count) w) ∧
      (addLog ("Frame extraction failed for frame " ++ pyStr count) w).stagingDir = w.stagingDir ∧
      (addLog ("Frame extraction failed for frame " ++ pyStr count) w).files = w.files) ∧
    (∀ (fps video_path : String) (w : World),
      get_fps false fps video_path w =
        .exited 1 (addLog ("Error: input video file not found. Given path:\n" ++ video_path) w) ∧
      (addLog ("Error: input video file not found. Given path:\n" ++ video_path) w).stagingDir = w.stagingDir) := by
  refine ⟨?_, ?_, ?_, ?_⟩
  · intro i td ir sf mv ms algo wd ht vb ec uo w hec hsd
    obtain ⟨w', hf, h1, h2, _, _, _, _⟩ := upscale_frame_fail i td ir sf mv ms algo wd ht vb ec uo w hec hsd
    exact ⟨w', hf, h1, h2⟩
  · intro fps ff_out input_video output_name td ffmpeg_args ff_exit total vb w hsd hm
    unfold encode_video
    rw [show get_fps true fps input_video w = .ok fps w from rfl]
    dsimp only
    rw [if_pos hm]
    simp only [cleanup, addLog, hsd, if_pos]
    exact ⟨_, rfl, rfl, rfl⟩
  · intro write_ok td remaining count w hwr
    refine ⟨?_, rfl, rfl⟩
    simp only [extract_go, hwr, Bool.false_eq_true, if_false]
  · intro fps video_path w
    exact ⟨rfl, rfl⟩

/-- Witness for C3 amended, applying its branches at concrete states: an
upscale failure with exit code 2 releases the staging area, while a
frame-write failure at frame 0 exits leaving the staging directory. -/
theorem c3_amended_witness :
    (∃ w', upscale_frame 0 temp_dir "ir" 2 2 "2" "xbr" 10 10 false 2 "" ⟨true, [frame_png temp_dir 0], false, [], [], false⟩ = .exited 1 w' ∧
      w'.stagingDir = false ∧ w'.files = []) ∧
    (extract_go (fun _ => false) temp_dir 1 0 ⟨true, [], false, [], [], false⟩ =
      .exited 1 (addLog ("Frame extraction failed for frame " ++ pyStr 0) ⟨true, [], false, [], [], false⟩) ∧
      (addLog ("Frame extraction failed for frame " ++ pyStr 0) ⟨true, [], false, [], [], false⟩).stagingDir = (⟨true, [], false, [], [], false⟩ : World).stagingDir ∧
      (addLog ("Frame extraction failed for frame " ++ pyStr 0) ⟨true, [], false, [], [], false⟩).files = (⟨true, [], false, [], [], false⟩ : World).files) :=
  ⟨c3_amended_cleanup_only_some_paths.1 0 temp_dir "ir" 2 2 "2" "xbr" 10 10 false 2 "" ⟨true, [frame_png temp_dir 0], false, [], [], false⟩ (by decide) rfl,
    c3_amended_cleanup_only_some_paths.2.2.1 (fun _ => false) temp_dir 0 0 ⟨true, [], false, [], [], false⟩ rfl⟩

/-!  Claim C10: the external command lines are functions of the job
parameters alone; the verbose flag changes only what is printed. -/

/-- C10: the spawned upscale command equals upscale_cmd of the job
parameters, and the spawned ffmpeg command equals build_ffmpeg_cmd of the
job parameters, independently of the verbose flag, which never changes
the recorded process invocations. -/
theorem c10_commands_verbose_independent
    (i : ℕ) (td ir : String) (sf mv : ℚ) (ms algo : String) (wd ht : ℤ) (ec : ℕ) (uo : String)
    (fps ff_out input_video output_name ffmpeg_args : String) (ffec total : ℕ) (w : World) :
    ((upscale_frame i td ir sf mv ms algo wd ht true ec uo w).world.procs =
      (upscale_frame i td ir sf mv ms algo wd ht false ec uo w).world.procs) ∧
    ((upscale_frame i td ir sf mv ms algo wd ht false ec uo w).world.procs =
      w.procs ++ [upscale_cmd i td ir sf mv ms algo wd ht]) ∧
    ((encode_video true fps ffec ff_out input_video output_name td total ffmpeg_args true w).world.procs =
      (encode_video true fps ffec ff_out input_video output_name td total ffmpeg_args false w).world.procs) ∧
    (get_missing_frames total td w.files = [] →
      (encode_video true fps ffec ff_out input_video output_name td total ffmpeg_args false w).world.procs =
        w.procs ++ [build_ffmpeg_cmd fps (td ++ "/frame_%05d_up.png") input_video ffmpeg_args output_name]) := by
  refine ⟨?_, ?_, ?_, ?_⟩
  · by_cases hec : ec = 0 <;> cases hsd : w.stagingDir <;>
      simp [upscale_frame, cleanup, addLog, PyResult.world, hec, hsd]
  · by_cases hec : ec = 0 <;> cases hsd : w.stagingDir <;>
      simp [upscale_frame, cleanup, addLog, PyResult.world, hec, hsd]
  · by_cases hm : get_missing_frames total td w.files ≠ [] <;>
      by_cases hff : ffec = 0 <;> by_cases ha : ffmpeg_args = "" <;>
      cases hsd : w.stagingDir <;>
      simp [encode_video, get_fps, cleanup, addLog, PyResult.world, hm, hff, ha, hsd]
  · intro hm
    by_cases hff : ffec = 0 <;> by_cases ha : ffmpeg_args = "" <;>
      simp [encode_video, get_fps, cleanup, addLog, PyResult.world, hm, hff, ha]

/-- Witness for C10: the ffmpeg command spawned on a concrete complete
staging state with default encoder arguments. -/
theorem c10_commands_verbose_independent_witness :
    (encode_video true "30.0" 0 "" "in.mp4" "out.mp4" temp_dir 1 "" false
        ⟨true, [frame_up_png temp_dir 0], false, [], [], false⟩).world.procs =
      (⟨true, [frame_up_png temp_dir 0], false, [], [], false⟩ : World).procs ++
        [build_ffmpeg_cmd "30.0" (temp_dir ++ "/frame_%05d_up.png") "in.mp4" "" "out.mp4"] :=
  (c10_commands_verbose_independent 0 temp_dir "ir" 2 2 "2" "xbr" 10 10 0 ""
    "30.0" "" "in.mp4" "out.mp4" "" 0 1 ⟨true, [frame_up_png temp_dir 0], false, [], [], false⟩).2.2.2 (by decide)

/-!  Claim C6: output-name derivation and collision disambiguation. -/

theorem cand_injective (filename ext : String) :
    Function.Injective (fun n => filename ++ "(" ++ pyStr n ++ ")" ++ ext) := by
  intro a b h
  simp only at h
  have hd : (filename ++ "(" ++ pyStr a ++ ")" ++ ext).data = (filename ++ "(" ++ pyStr b ++ ")" ++ ext).data := by
    rw [h]
  simp only [String.data_append, List.append_assoc] at hd
  have h2 := List.append_cancel_left hd
  simp only [show ("(" : String).data = ['('] from rfl, List.singleton_append, List.cons_inj_right] at h2
  have h3 : (pyStr a).data = (pyStr b).data := by
    apply List.append_cancel_right
    exact h2
  have := decVal_pyStr a
  rw [h3, decVal_pyStr b] at this
  exact this.symm

theorem exists_cand_not_mem (fs : List String) (filename ext : String) (counter : ℕ) :
    ∃ k, counter ≤ k ∧ k < counter + (fs.length + 1) ∧ (filename ++ "(" ++ pyStr k ++ ")" ++ ext) ∉ fs := by
  by_contra hc
  push_neg at hc
  have hmap : ∀ j ∈ List.range (fs.length + 1), (filename ++ "(" ++ pyStr (counter + j) ++ ")" ++ ext) ∈ fs := by
    intro j hj
    rw [List.mem_range] at hj
    exact hc _ (by omega) (by omega)
  have hinj : Function.Injective (fun j : ℕ => filename ++ "(" ++ pyStr (counter + j) ++ ")" ++ ext) :=
    (cand_injective filename ext).comp (add_right_injective counter)
  have hnd : ((List.range (fs.length + 1)).map (fun j => filename ++ "(" ++ pyStr (counter + j) ++ ")" ++ ext)).Nodup :=
    (List.nodup_range _).map hinj
  have hsub : ((List.range (fs.length + 1)).map (fun j => filename ++ "(" ++ pyStr (counter + j) ++ ")" ++ ext)) ⊆ fs := by
    intro x hx
    obtain ⟨j, hj, rfl⟩ := List.mem_map.mp hx
    exact hmap j hj
  have h1 : ((List.range (fs.length + 1)).map (fun j => filename ++ "(" ++ pyStr (counter + j) ++ ")" ++ ext)).toFinset.card = fs.length + 1 := by
    rw [List.toFinset_card_of_nodup hnd]
    simp
  have h2 : ((List.range (fs.length + 1)).map (fun j => filename ++ "(" ++ pyStr (counter + j) ++ ")" ++ ext)).toFinset ⊆ fs.toFinset := by
    intro x hx
    rw [List.mem_toFinset] at hx ⊢
    exact hsub hx
  have h3 := Finset.card_le_card h2
  have h4 : fs.toFinset.card ≤ fs.length := List.toFinset_card_le fs
  omega

theorem no_overwrite_go_not_mem (fs : List String) (filename ext : String) :
    ∀ (fuel counter : ℕ) (cur : String),
      (cur ∉ fs ∨ ∃ k, counter ≤ k ∧ k < counter + fuel ∧ (filename ++ "(" ++ pyStr k ++ ")" ++ ext) ∉ fs) →
      no_overwrite_go fs filename ext fuel counter cur ∉ fs := by
  intro fuel
  induction fuel with
  | zero =>
    intro counter cur h
    rcases h with h | ⟨k, hk1, hk2, _⟩
    · simpa [no_overwrite_go] using h
    · omega
  | succ f ih =>
    intro counter cur h
    by_cases hc : cur ∈ fs
    · have h' : ∃ k, counter ≤ k ∧ k < counter + (f + 1) ∧ (filename ++ "(" ++ pyStr k ++ ")" ++ ext) ∉ fs := by
        rcases h with h | h
        · contradiction
        · exact h
      simp only [no_overwrite_go, if_pos hc]
      apply ih
      rcases h' with ⟨k, hk1, hk2, hk3⟩
      rcases Nat.eq_or_lt_of_le hk1 with rfl | hlt
      · exact Or.inl hk3
      · exact Or.inr ⟨k, by omega, by omega, hk3⟩
    · simp only [no_overwrite_go, if_neg hc]
      exact hc

theorem no_overwrite_go_shape (fs : List String) (filename ext : String) :
    ∀ (fuel counter : ℕ) (cur : String),
      no_overwrite_go fs filename ext fuel counter cur = cur ∨
      (cur ∈ fs ∧ ∃ n, counter ≤ n ∧
        no_overwrite_go fs filename ext fuel counter cur = filename ++ "(" ++ pyStr n ++ ")" ++ ext ∧
        (∀ m, counter ≤ m → m < n → (filename ++ "(" ++ pyStr m ++ ")" ++ ext) ∈ fs)) := by
  intro fuel
  induction fuel with
  | zero =>
    intro counter cur
    exact Or.inl rfl
  | succ f ih =>
    intro counter cur
    by_cases hc : cur ∈ fs
    · right
      refine ⟨hc, ?_⟩
      simp only [no_overwrite_go, if_pos hc]
      rcases ih (counter + 1) (filename ++ "(" ++ pyStr counter ++ ")" ++ ext) with heq | ⟨hmem, n, hn1, hn2, hn3⟩
      · exact ⟨counter, le_rfl, heq, fun m hm1 hm2 => absurd hm1 (by omega)⟩
      · refine ⟨n, by omega, hn2, ?_⟩
        intro m hm1 hm2
        rcases Nat.eq_or_lt_of_le hm1 with rfl | hlt
        · exact hmem
        · exact hn3 m (by omega) hm2
    · left
      simp only [no_overwrite_go, if_neg hc]

/-- C6: no_overwrite never returns an existing path, returns the derived
name unchanged when it does not already exist, and on collision returns
the candidate with the smallest counter n at least 1 placed in
parentheses before the extension for which that candidate does not
exist. -/
theorem c6_no_overwrite_spec (fs : List String) (name : String) :
    no_overwrite fs name ∉ fs ∧
    (name ∉ fs → no_overwrite fs name = name) ∧
    (name ∈ fs → ∃ n, 1 ≤ n ∧
      no_overwrite fs name = (splitext name).1 ++ "(" ++ pyStr n ++ ")" ++ (splitext name).2 ∧
      (∀ m, 1 ≤ m → m < n → ((splitext name).1 ++ "(" ++ pyStr m ++ ")" ++ (splitext name).2) ∈ fs) ∧
      ((splitext name).1 ++ "(" ++ pyStr n ++ ")" ++ (splitext name).2) ∉ fs) := by
  have hnm : no_overwrite fs name ∉ fs := by
    unfold no_overwrite
    apply no_overwrite_go_not_mem
    obtain ⟨k, h1, h2, h3⟩ := exists_cand_not_mem fs (splitext name).1 (splitext name).2 1
    exact Or.inr ⟨k, h1, by omega, h3⟩
  refine ⟨hnm, ?_, ?_⟩
  · intro h
    show no_overwrite_go fs (splitext name).1 (splitext name).2 (fs.length + 2) 1 name = name
    rw [show fs.length + 2 = (fs.length + 1) + 1 from rfl]
    simp only [no_overwrite_go, if_neg h]
  · intro h
    rcases no_overwrite_go_shape fs (splitext name).1 (splitext name).2 (fs.length + 2) 1 name with heq | ⟨_, n, hn1, hn2, hn3⟩
    · exfalso
      apply hnm
      show no_overwrite_go fs (splitext name).1 (splitext name).2 (fs.length + 2) 1 name ∈ fs
      rw [heq]
      exact h
    · refine ⟨n, hn1, hn2, hn3, ?_⟩
      rw [← hn2]
      exact hnm

/-- Witness for C6: with v.mp4 and v(1).mp4 existing, the derived name
v.mp4 collides and the returned path avoids both existing files. -/
theorem c6_no_overwrite_spec_witness :
    ("v.mp4" : String) ∈ ["v.mp4", "v(1).mp4"] ∧
    no_overwrite ["v.mp4", "v(1).mp4"] "v.mp4" ∉ ["v.mp4", "v(1).mp4"] ∧
    ∃ n, 1 ≤ n ∧
      no_overwrite ["v.mp4", "v(1).mp4"] "v.mp4" = (splitext "v.mp4").1 ++ "(" ++ pyStr n ++ ")" ++ (splitext "v.mp4").2 ∧
      (∀ m, 1 ≤ m → m < n → ((splitext "v.mp4").1 ++ "(" ++ pyStr m ++ ")" ++ (splitext "v.mp4").2) ∈ ["v.mp4", "v(1).mp4"]) ∧
      ((splitext "v.mp4").1 ++ "(" ++ pyStr n ++ ")" ++ (splitext "v.mp4").2) ∉ ["v.mp4", "v(1).mp4"] :=
  ⟨by decide, (c6_no_overwrite_spec ["v.mp4", "v(1).mp4"] "v.mp4").1,
    (c6_no_overwrite_spec ["v.mp4", "v(1).mp4"] "v.mp4").2.2 (by decide)⟩
